import Mathlib

/-!
Verification of the `guards` runtime data-shape validation library.

The library's core (`core.js`, v0.2.0) builds composable guard functions:
primitive guards from a validity predicate plus an optional default value,
object-schema guards (`GSchema`), homogeneous array guards (`GArray`),
fixed-length tuple guards (`GTuple`) and union guards (`GAnyOf`).  A guard
is invoked as `guard(value, name)` and either returns the normalized value
or throws a `TypeError` whose message is a template with the placeholders
`\x7b\x7bname\x7d\x7d` / `\x7b\x7bkey\x7d\x7d`, `\x7b\x7bvalue\x7d\x7d`
and `\x7b\x7btype\x7d\x7d` substituted.

The development embeds the JavaScript value universe as `JSVal`, guards as
the inductive `Guard`, and the invocation protocol as `invoke`, translated
from `core.js` (`guard`, `GSchema`, `GArray`, `GTuple`, `GAnyOf`).  Two
historical evolutions of the same library that ship in `lib/guards.js` are
embedded separately where their behaviour diverges: the prototype-based
`Guard` constructor (as `GuardExtendable`) and the defaultValue-parameter
string guard (as `GString`).
-/

/-- The universe of JavaScript runtime values handled by the library:
`undefined`, `null`, booleans, numbers (modelled as integers; the library
never computes with numbers, it only type-tests and copies them), primitive
strings, arrays, plain objects (ordered association lists, mirroring JS own
enumerable key order), and function values (opaque, identified by a tag). -/
inductive JSVal : Type where
  | undef : JSVal
  | null : JSVal
  | bool : Bool → JSVal
  | num : Int → JSVal
  | str : String → JSVal
  | arr : List JSVal → JSVal
  | obj : List (String × JSVal) → JSVal
  | func : Nat → JSVal

/-- The single error kind raised by the library: a `TypeError` carrying a
rendered message string. -/
structure TypeError where
  message : String
deriving DecidableEq, Repr

deriving instance DecidableEq for Except

mutual

/-- Boolean structural equality on `JSVal`, used to build decidable
equality (the automatic derive handler does not support this nested
inductive). -/
def beqVal : JSVal → JSVal → Bool
  | JSVal.undef, JSVal.undef => true
  | JSVal.null, JSVal.null => true
  | JSVal.bool a, JSVal.bool b => a == b
  | JSVal.num a, JSVal.num b => a == b
  | JSVal.str a, JSVal.str b => a == b
  | JSVal.arr a, JSVal.arr b => beqValList a b
  | JSVal.obj a, JSVal.obj b => beqValFields a b
  | JSVal.func a, JSVal.func b => a == b
  | _, _ => false
termination_by structural a => a

/-- Pointwise `beqVal` on lists of values. -/
def beqValList : List JSVal → List JSVal → Bool
  | [], [] => true
  | a :: as0, b :: bs => beqVal a b && beqValList as0 bs
  | _, _ => false
termination_by structural a => a

/-- Pointwise `beqVal` on association lists. -/
def beqValFields : List (String × JSVal) → List (String × JSVal) → Bool
  | [], [] => true
  | (ka, a) :: as0, (kb, b) :: bs => ka == kb && beqVal a b && beqValFields as0 bs
  | _, _ => false
termination_by structural a => a

end

mutual

theorem beqVal_refl : ∀ a, beqVal a a = true
  | JSVal.undef => rfl
  | JSVal.null => rfl
  | JSVal.bool a => by simp [beqVal]
  | JSVal.num a => by simp [beqVal]
  | JSVal.str a => by simp [beqVal]
  | JSVal.arr a => by simp [beqVal, beqValList_refl a]
  | JSVal.obj a => by simp [beqVal, beqValFields_refl a]
  | JSVal.func a => by simp [beqVal]
termination_by structural a => a

theorem beqValList_refl : ∀ a, beqValList a a = true
  | [] => rfl
  | a :: as0 => by simp [beqValList, beqVal_refl a, beqValList_refl as0]
termination_by structural a => a

theorem beqValFields_refl : ∀ a, beqValFields a a = true
  | [] => rfl
  | (ka, a) :: as0 => by simp [beqValFields, beqVal_refl a, beqValFields_refl as0]
termination_by structural a => a

end

mutual

theorem beqVal_eq : ∀ a b, beqVal a b = true → a = b
  | JSVal.undef, JSVal.undef, _ => rfl
  | JSVal.null, JSVal.null, _ => rfl
  | JSVal.bool a, JSVal.bool b, h => by simp [beqVal] at h; simp [h]
  | JSVal.num a, JSVal.num b, h => by simp [beqVal] at h; simp [h]
  | JSVal.str a, JSVal.str b, h => by simp [beqVal] at h; simp [h]
  | JSVal.arr a, JSVal.arr b, h => by
      simp only [beqVal] at h
      simp [beqValList_eq a b h]
  | JSVal.obj a, JSVal.obj b, h => by
      simp only [beqVal] at h
      simp [beqValFields_eq a b h]
  | JSVal.func a, JSVal.func b, h => by simp [beqVal] at h; simp [h]
termination_by structural a => a

theorem beqValList_eq : ∀ a b, beqValList a b = true → a = b
  | [], [], _ => rfl
  | a :: as0, b :: bs, h => by
      simp only [beqValList, Bool.and_eq_true] at h
      simp [beqVal_eq a b h.1, beqValList_eq as0 bs h.2]
  | [], _ :: _, h => by simp [beqValList] at h
  | _ :: _, [], h => by simp [beqValList] at h
termination_by structural a => a

theorem beqValFields_eq : ∀ a b, beqValFields a b = true → a = b
  | [], [], _ => rfl
  | (ka, a) :: as0, (kb, b) :: bs, h => by
      simp only [beqValFields, Bool.and_eq_true] at h
      obtain ⟨⟨hk, hv⟩, hrest⟩ := h
      simp only [beq_iff_eq] at hk
      simp [hk, beqVal_eq a b hv, beqValFields_eq as0 bs hrest]
  | [], _ :: _, h => by simp [beqValFields] at h
  | _ :: _, [], h => by simp [beqValFields] at h
termination_by structural a => a

end

instance : DecidableEq JSVal := fun a b =>
  decidable_of_iff (beqVal a b = true)
    ⟨beqVal_eq a b, fun h => h ▸ beqVal_refl a⟩

/-- Modelled from the spec: the type-test predicate `isUndefined` of the
predicate library (the `./type` module required by `core.js` is not part of
the source corpus).  It recognises the absent-marker `undefined`. -/
def jsIsUndefined : JSVal → Bool
  | JSVal.undef => true
  | _ => false

/-- Modelled from the spec: the `isNull` predicate of the missing `./type`
module. -/
def jsIsNull : JSVal → Bool
  | JSVal.null => true
  | _ => false

/-- Modelled from the spec: the `isString` predicate of the missing
`./type` module; it accepts only primitive string values (the spec demands
that boxed string wrapper objects are rejected, and wrappers are `obj`
values here). -/
def jsIsString : JSVal → Bool
  | JSVal.str _ => true
  | _ => false

/-- Modelled from the spec: the `isNumber` predicate of the missing
`./type` module. -/
def jsIsNumber : JSVal → Bool
  | JSVal.num _ => true
  | _ => false

/-- Modelled from the spec: the `isBoolean` predicate of the missing
`./type` module. -/
def jsIsBoolean : JSVal → Bool
  | JSVal.bool _ => true
  | _ => false

/-- Modelled from the spec: the `isFunction` predicate of the missing
`./type` module. -/
def jsIsFunction : JSVal → Bool
  | JSVal.func _ => true
  | _ => false

/-- Modelled from the spec: the `isArray` predicate of the missing
`./type` module. -/
def jsIsArray : JSVal → Bool
  | JSVal.arr _ => true
  | _ => false

/-- Modelled from the spec: the `isObject` predicate of the missing
`./type` module.  Arrays are object-like in the host representation
(`typeof [] === "object"`), so `isObject` accepts them; the Schema guard
therefore needs its explicit extra `isArray` exclusion. -/
def jsIsObject : JSVal → Bool
  | JSVal.obj _ => true
  | JSVal.arr _ => true
  | _ => false

/-- The runtime type tag `typeof value` of a JS value. -/
def typeofStr : JSVal → String
  | JSVal.undef => "undefined"
  | JSVal.null => "object"
  | JSVal.bool _ => "boolean"
  | JSVal.num _ => "number"
  | JSVal.str _ => "string"
  | JSVal.arr _ => "object"
  | JSVal.obj _ => "object"
  | JSVal.func _ => "function"

mutual

/-- JavaScript string coercion `String(value)`, used when a value is
spliced into an error-message template: `undefined` and `null` render as
their names, arrays join their elements with commas (with `undefined` and
`null` elements rendering as empty, per `Array.prototype.toString`),
plain objects render as `[object Object]`, and function values render
with the `function` keyword (their source text is irrelevant here). -/
def jsToString : JSVal → String
  | JSVal.undef => "undefined"
  | JSVal.null => "null"
  | JSVal.bool b => if b then "true" else "false"
  | JSVal.num n => toString n
  | JSVal.str s => s
  | JSVal.arr xs => String.intercalate "," (arrStrings xs)
  | JSVal.obj _ => "[object Object]"
  | JSVal.func _ => "function"
termination_by structural v => v

/-- Element renderings used by `jsToString` on arrays. -/
def arrStrings : List JSVal → List String
  | [] => []
  | JSVal.undef :: xs => "" :: arrStrings xs
  | JSVal.null :: xs => "" :: arrStrings xs
  | x :: xs => jsToString x :: arrStrings xs
termination_by structural l => l

end

/-- Pattern match helper: does `pat` occur right at the start of `s`? -/
def matchesAt : List Char → List Char → Bool
  | [], _ => true
  | _ :: _, [] => false
  | p :: ps, c :: cs => p == c && matchesAt ps cs

/-- Replace the first occurrence of `pat` in `s` by `rep`, on character
lists. -/
def replaceFirstAux (pat rep : List Char) : List Char → List Char
  | [] => []
  | c :: cs =>
    if matchesAt pat (c :: cs) then rep ++ (c :: cs).drop pat.length
    else c :: replaceFirstAux pat rep cs

/-- JavaScript `string.replace(pattern, replacement)` with a string
pattern: only the first occurrence is replaced. -/
def replaceFirst (s pat rep : String) : String :=
  ⟨replaceFirstAux pat.data rep.data s.data⟩

/-- The `\x7b\x7bname\x7d\x7d` placeholder. -/
def namePat : String := "\x7b\x7bname\x7d\x7d"

/-- The `\x7b\x7bkey\x7d\x7d` placeholder. -/
def keyPat : String := "\x7b\x7bkey\x7d\x7d"

/-- The `\x7b\x7bvalue\x7d\x7d` placeholder. -/
def valuePat : String := "\x7b\x7bvalue\x7d\x7d"

/-- The `\x7b\x7btype\x7d\x7d` placeholder. -/
def typePat : String := "\x7b\x7btype\x7d\x7d"

/-- Message rendering performed by the primitive `guard` of `core.js` (and
by the prototype-based `Guard` constructor): substitute the name, value
and type placeholders, in that order, each replacing its first occurrence. -/
def primSubst (template : String) (name value : JSVal) : String :=
  replaceFirst
    (replaceFirst
      (replaceFirst template namePat (jsToString name))
      valuePat (jsToString value))
    typePat (typeofStr value)

/-- Message rendering performed by `GSchema`, `GArray`, `GTuple` (and the
old `GString`/`GNumber` guards): substitute the key, value and type
placeholders, in that order, each replacing its first occurrence. -/
def keySubst (template : String) (key value : JSVal) : String :=
  replaceFirst
    (replaceFirst
      (replaceFirst template keyPat (jsToString key))
      valuePat (jsToString value))
    typePat (typeofStr value)

example : replaceFirst "String expected instead of \x7b\x7btype\x7d\x7d" typePat "number"
    = "String expected instead of number" := by decide

example : primSubst "a \x7b\x7bvalue\x7d\x7d b \x7b\x7bvalue\x7d\x7d" JSVal.undef (JSVal.num 3)
    = "a 3 b \x7b\x7bvalue\x7d\x7d" := by decide

/-- Property access `value[key]` on an object: a key that is not present
yields `undefined`. -/
def JSVal.get (v : JSVal) (key : String) : JSVal :=
  match v with
  | JSVal.obj fields =>
    match fields.lookup key with
    | some x => x
    | none => JSVal.undef
  | _ => JSVal.undef

/-- Indexed access `value[index]` on an array: an index past the end
yields `undefined`. -/
def JSVal.item (v : JSVal) (i : Nat) : JSVal :=
  match v with
  | JSVal.arr xs => xs.getD i JSVal.undef
  | _ => JSVal.undef

/-- The element list of an array value (used only under an `isArray`
test, where it is exact). -/
def JSVal.elems (v : JSVal) : List JSVal :=
  match v with
  | JSVal.arr xs => xs
  | _ => []

/-- A guard of the core library, by construction:
`primitive` is a guard produced by the `Guard(isValid, message)` factory
from an options object (an optional declared default — present exactly
when the options own a `defaults` key — and a message template);
`schema` is `Schema(descriptor, message)` with its ordered field
descriptor; `garray` is `Array(guard, message)`; `tuple` is
`Tuple(guards, message)`; `anyOf` is `AnyOf(...guards)`;
`custom` is a user-supplied validator function with the same
`(value, name) -> value | throw` contract, usable anywhere a constructed
guard is expected. -/
inductive Guard : Type where
  | primitive (isValid : JSVal → Bool) (template : String) (defaults : Option JSVal)
  | schema (template : String) (descriptor : List (String × Guard))
  | garray (template : String) (child : Guard)
  | tuple (template : String) (children : List Guard)
  | anyOf (children : List Guard)
  | custom (f : JSVal → JSVal → Except TypeError JSVal)

/-- The `if (isUndefined(value)) value = \x7b\x7d` defaulting step of
`GSchema`: an absent value is treated as an empty object. -/
def schemaTarget (value : JSVal) : JSVal :=
  match value with
  | JSVal.undef => JSVal.obj []
  | _ => value

/-- The `if (isUndefined(value)) value = []` defaulting step of `GArray`
and `GTuple`: an absent value is treated as an empty array. -/
def arrayTarget (value : JSVal) : JSVal :=
  match value with
  | JSVal.undef => JSVal.arr []
  | _ => value

/-- The `value.map(function(value, index) ... )` iteration of `GArray`:
apply `f` to every element together with its index, propagating the first
error. -/
def mapWithIndex (f : JSVal → JSVal → Except TypeError JSVal) :
    List JSVal → Nat → Except TypeError (List JSVal)
  | [], _ => Except.ok []
  | x :: xs, i =>
    match f x (JSVal.num i) with
    | Except.error e => Except.error e
    | Except.ok y =>
      match mapWithIndex f xs (i + 1) with
      | Except.error e => Except.error e
      | Except.ok ys => Except.ok (y :: ys)

mutual

/-- Invocation `guard(value, name)` of a guard, translated case by case
from `core.js`:
the primitive `guard` substitutes its declared default for an absent
value without validating it, otherwise validates with `isValid` and
throws the rendered template on failure, returning the value unchanged;
`GSchema` treats absent as an empty object, rejects anything that is not
a non-array object, then maps every descriptor key through its child
guard; `GArray` treats absent as an empty array, rejects non-arrays, then
maps every element through the element guard with its index; `GTuple`
does the same but iterates the descriptor guards rather than the input;
`GAnyOf` tries each alternative in order inside a catch-all and throws
its own fixed message if none succeeds; a custom guard is simply
applied. -/
def invoke : Guard → JSVal → JSVal → Except TypeError JSVal
  | Guard.primitive isValid template defaults, value, name =>
    match defaults, value with
    | some d, JSVal.undef => Except.ok d
    | _, _ =>
      if !(isValid value) then Except.error ⟨primSubst template name value⟩
      else Except.ok value
  | Guard.schema template descriptor, value, name =>
    if !(jsIsObject (schemaTarget value)) || jsIsArray (schemaTarget value) then
      Except.error ⟨keySubst template name (schemaTarget value)⟩
    else
      (invokeFields descriptor (schemaTarget value)).map JSVal.obj
  | Guard.garray template child, value, name =>
    if !(jsIsArray (arrayTarget value)) then
      Except.error ⟨keySubst template name (arrayTarget value)⟩
    else
      (mapWithIndex (invoke child) (arrayTarget value).elems 0).map JSVal.arr
  | Guard.tuple template children, value, name =>
    if !(jsIsArray (arrayTarget value)) then
      Except.error ⟨keySubst template name (arrayTarget value)⟩
    else
      (invokeTuple children (arrayTarget value) 0).map JSVal.arr
  | Guard.anyOf children, value, name => invokeAnyOf children value name
  | Guard.custom f, value, name => f value name
termination_by structural g => g

/-- The `Object.keys(descriptor).forEach` loop of `GSchema`: invoke each
field's guard with `(value[key], key)` and collect the results under the
same keys, in descriptor order, propagating the first error. -/
def invokeFields : List (String × Guard) → JSVal → Except TypeError (List (String × JSVal))
  | [], _ => Except.ok []
  | (key, g) :: rest, v =>
    match invoke g (v.get key) (JSVal.str key) with
    | Except.error e => Except.error e
    | Except.ok x =>
      match invokeFields rest v with
      | Except.error e => Except.error e
      | Except.ok xs => Except.ok ((key, x) :: xs)
termination_by structural l => l

/-- The `guards.map(function(guard, index) ... )` loop of `GTuple`:
invoke the `index`-th guard with `(value[index], index)` — an index past
the input's end yields the absent marker — propagating the first error. -/
def invokeTuple : List Guard → JSVal → Nat → Except TypeError (List JSVal)
  | [], _, _ => Except.ok []
  | g :: gs, v, i =>
    match invoke g (v.item i) (JSVal.num i) with
    | Except.error e => Except.error e
    | Except.ok y =>
      match invokeTuple gs v (i + 1) with
      | Except.error e => Except.error e
      | Except.ok ys => Except.ok (y :: ys)
termination_by structural l => l

/-- The `for` loop of `GAnyOf`: try each alternative inside
`try ... catch(e) \x7b\x7d`, returning the first success; when none
succeeds, throw `GAnyOf`'s own fixed message with only the value
placeholder substituted. -/
def invokeAnyOf : List Guard → JSVal → JSVal → Except TypeError JSVal
  | [], value, _ =>
    Except.error ⟨replaceFirst "Passed value: `\x7b\x7bvalue\x7d\x7d` has invalid type or structure" valuePat (jsToString value)⟩
  | g :: gs, value, name =>
    match invoke g value name with
    | Except.ok x => Except.ok x
    | Except.error _ => invokeAnyOf gs value name
termination_by structural l => l

end

/-- The fixed error-message template of `GAnyOf`. -/
def anyOfMessage : String := "Passed value: `\x7b\x7bvalue\x7d\x7d` has invalid type or structure"

/-- The rendered `GAnyOf` failure message for a given raw value. -/
def anyOfSubst (value : JSVal) : String :=
  replaceFirst anyOfMessage valuePat (jsToString value)

/-- Built-in message template of the `String` guard. -/
def stringMessage : String := "String expected instead of \x7b\x7btype\x7d\x7d `\x7b\x7bvalue\x7d\x7d`"

/-- Built-in message template of the `Number` guard. -/
def numberMessage : String := "Number expected instead of \x7b\x7btype\x7d\x7d `\x7b\x7bvalue\x7d\x7d`"

/-- Built-in message template of the `Schema` guard. -/
def objectMessage : String := "Object expected instead of \x7b\x7btype\x7d\x7d `\x7b\x7bvalue\x7d\x7d`"

/-- Built-in message template of the `Array` and `Tuple` guards. -/
def arrayMessage : String := "Array expected instead of \x7b\x7btype\x7d\x7d `\x7b\x7bvalue\x7d\x7d`"

/-- The prototype-based `Guard` of `lib/guards.js` (the Extendable
evolution), specialised to primitive guards, whose `validate` override is
the identity.  Its constructor substitutes the declared default for an
absent value (`defaults !== NO_DEFAULT`, modelled by `Option`) and then
— with no `else` — runs `isValid` on the resulting value, so a
substituted default is itself validated. -/
def GuardExtendable (isValid : JSVal → Bool) (message : String)
    (defaults : Option JSVal) (value name : JSVal) : Except TypeError JSVal :=
  let v := match defaults, value with
           | some d, JSVal.undef => d
           | _, _ => value
  if !(isValid v) then Except.error ⟨primSubst message name v⟩
  else Except.ok v

/-- The defaultValue-parameter `GString` guard of the older evolution in
`lib/guards.js`: an absent value always takes `defaultValue` (which
itself falls back to `undefined` when not provided) and is returned
without validation; any other value must satisfy `isString`. -/
def GString (defaultValue : JSVal) (message : String)
    (value key : JSVal) : Except TypeError JSVal :=
  match value with
  | JSVal.undef => Except.ok defaultValue
  | _ =>
    if !(jsIsString value) then Except.error ⟨keySubst message key value⟩
    else Except.ok value

/-- The field loop of the prototype-based `Schema.validate` in
`lib/guards.js` (lines 311-333): each descriptor guard is invoked as
`this[key](value[key], name)` — with the schema's own received `name`
hint, NOT with the key (unlike the closure-based `GSchema`
implementations) — in iteration order, propagating the first error. -/
def invokeFieldsNamed : List (String × Guard) → JSVal → JSVal → Except TypeError (List (String × JSVal))
  | [], _, _ => Except.ok []
  | (key, g) :: rest, v, name =>
    match invoke g (v.get key) name with
    | Except.error e => Except.error e
    | Except.ok x =>
      match invokeFieldsNamed rest v name with
      | Except.error e => Except.error e
      | Except.ok xs => Except.ok ((key, x) :: xs)

/-- Invocation of the prototype-based `Schema` of `lib/guards.js`: the
inherited `Guard` constructor performs no defaulting (`Schema` keeps
`defaults = NO_DEFAULT`), tests `isValid(value)` — absent, or an object
that is not an array — and renders the name/value/type placeholders on
failure; `validate` then replaces a falsy value by an empty object
(`value || \x7b\x7d`, which on the values `isValid` accepts coincides
with the absent-to-empty-object step `schemaTarget`) and runs the field
loop, passing the outer `name` hint to every child. -/
def SchemaExtendable (message : String) (descriptor : List (String × Guard))
    (value name : JSVal) : Except TypeError JSVal :=
  if !(jsIsUndefined value || (jsIsObject value && !(jsIsArray value))) then
    Except.error ⟨primSubst message name value⟩
  else
    (invokeFieldsNamed descriptor (schemaTarget value) name).map JSVal.obj

/-- The early closure-based `GSchema` of `lib/guards.js` (lines 804-816):
an absent value falls back to an empty object, and the structural check
is only `!isObject(value)` — there is NO array exclusion, so an
object-like array passes the precondition and flows into the field loop
(where the descriptor's identifier keys read as absent on an array).
The children are invoked with `(value[key], key)` as in the core
version. -/
def GSchemaOld (template : String) (descriptor : List (String × Guard))
    (value key : JSVal) : Except TypeError JSVal :=
  if !(jsIsObject (schemaTarget value)) then
    Except.error ⟨keySubst template key (schemaTarget value)⟩
  else
    (invokeFields descriptor (schemaTarget value)).map JSVal.obj

/-- The `Number(defaultValue)` guard of `core.js` with its built-in
template, used to build the concrete `Point` / `Segment` examples from
the library's own documentation and tests. -/
def NumberGuard (defaultValue : Option JSVal) : Guard :=
  Guard.primitive jsIsNumber numberMessage defaultValue

/-- The documentation's `Point = Schema(\x7bx: Number(0), y: Number(0)\x7d)`. -/
def PointGuard : Guard :=
  Guard.schema objectMessage
    [("x", NumberGuard (some (JSVal.num 0))), ("y", NumberGuard (some (JSVal.num 0)))]

/-- The documentation's `ArrayPoint = Tuple([Number(0), Number(0)])`. -/
def ArrayPointGuard : Guard :=
  Guard.tuple arrayMessage
    [NumberGuard (some (JSVal.num 0)), NumberGuard (some (JSVal.num 0))]

example : invoke PointGuard (JSVal.obj [("x", JSVal.num 17), ("z", JSVal.num 50)]) JSVal.undef
    = Except.ok (JSVal.obj [("x", JSVal.num 17), ("y", JSVal.num 0)]) := by decide

example : invoke PointGuard (JSVal.str "p") JSVal.undef
    = Except.error ⟨"Object expected instead of string `p`"⟩ := by decide

example : invoke (Guard.anyOf [PointGuard, ArrayPointGuard]) (JSVal.arr [JSVal.num 1]) JSVal.undef
    = Except.ok (JSVal.arr [JSVal.num 1, JSVal.num 0]) := by decide

example : invoke (Guard.anyOf [PointGuard, ArrayPointGuard]) (JSVal.num 1) JSVal.undef
    = Except.error ⟨"Passed value: `1` has invalid type or structure"⟩ := by decide

theorem invoke_primitive_default (p : JSVal → Bool) (t : String) (d name : JSVal) :
    invoke (Guard.primitive p t (some d)) JSVal.undef name = Except.ok d := rfl

theorem invoke_primitive_none (p : JSVal → Bool) (t : String) (value name : JSVal) :
    invoke (Guard.primitive p t none) value name =
      if !(p value) then Except.error ⟨primSubst t name value⟩ else Except.ok value := by
  cases value <;> rfl

theorem invoke_primitive_not_undef (p : JSVal → Bool) (t : String) (defaults : Option JSVal)
    (value name : JSVal) (h : value ≠ JSVal.undef) :
    invoke (Guard.primitive p t defaults) value name =
      if !(p value) then Except.error ⟨primSubst t name value⟩ else Except.ok value := by
  cases defaults <;> cases value <;> first | rfl | exact absurd rfl h

theorem invoke_anyOf_eq (alts : List Guard) (value name : JSVal) :
    invoke (Guard.anyOf alts) value name = invokeAnyOf alts value name := rfl

theorem invokeAnyOf_nil (value name : JSVal) :
    invokeAnyOf [] value name = Except.error ⟨anyOfSubst value⟩ := rfl

theorem invokeAnyOf_cons_ok (g : Guard) (gs : List Guard) (value name x : JSVal)
    (h : invoke g value name = Except.ok x) :
    invokeAnyOf (g :: gs) value name = Except.ok x := by
  simp [invokeAnyOf, h]

theorem invokeAnyOf_cons_err (g : Guard) (gs : List Guard) (value name : JSVal) (e : TypeError)
    (h : invoke g value name = Except.error e) :
    invokeAnyOf (g :: gs) value name = invokeAnyOf gs value name := by
  simp [invokeAnyOf, h]

theorem invokeAnyOf_error_eq :
    ∀ (alts : List Guard) (value name : JSVal) (e : TypeError),
      invokeAnyOf alts value name = Except.error e → e = ⟨anyOfSubst value⟩
  | [], value, name, e, h => by
      rw [invokeAnyOf_nil] at h
      exact (Except.error.inj h).symm
  | g :: gs, value, name, e, h => by
      cases hg : invoke g value name with
      | ok x => rw [invokeAnyOf_cons_ok g gs value name x hg] at h; exact absurd h (by simp)
      | error e2 =>
          rw [invokeAnyOf_cons_err g gs value name e2 hg] at h
          exact invokeAnyOf_error_eq gs value name e h

theorem invokeAnyOf_fails_iff :
    ∀ (alts : List Guard) (value name : JSVal),
      (∃ e, invokeAnyOf alts value name = Except.error e) ↔
        (∀ g ∈ alts, ∃ e, invoke g value name = Except.error e)
  | [], value, name => by
      simp [invokeAnyOf_nil]
  | g :: gs, value, name => by
      cases hg : invoke g value name with
      | ok x =>
          rw [invokeAnyOf_cons_ok g gs value name x hg]
          simp only [List.mem_cons]
          constructor
          · rintro ⟨e, he⟩; exact absurd he (by simp)
          · intro h
            obtain ⟨e, he⟩ := h g (Or.inl rfl)
            rw [hg] at he
            exact absurd he (by simp)
      | error e2 =>
          rw [invokeAnyOf_cons_err g gs value name e2 hg]
          rw [invokeAnyOf_fails_iff gs value name]
          simp only [List.mem_cons]
          constructor
          · intro h g2 hg2
            cases hg2 with
            | inl h2 => exact ⟨e2, h2 ▸ hg⟩
            | inr h2 => exact h g2 h2
          · intro h g2 hg2
            exact h g2 (Or.inr hg2)

theorem invokeAnyOf_first :
    ∀ (pre : List Guard) (g : Guard) (post : List Guard) (value name x : JSVal),
      (∀ g2 ∈ pre, ∃ e, invoke g2 value name = Except.error e) →
      invoke g value name = Except.ok x →
      invokeAnyOf (pre ++ g :: post) value name = Except.ok x
  | [], g, post, value, name, x, _, hok => by
      simpa using invokeAnyOf_cons_ok g post value name x hok
  | g2 :: pre, g, post, value, name, x, hpre, hok => by
      obtain ⟨e, he⟩ := hpre g2 (by simp)
      rw [List.cons_append, invokeAnyOf_cons_err g2 (pre ++ g :: post) value name e he]
      exact invokeAnyOf_first pre g post value name x
        (fun g3 h3 => hpre g3 (by simp [h3])) hok

/-- The per-field success relation of a Schema invocation on target
object `v`: the output pair shares the descriptor pair's key and holds
the child guard's result for `v`'s value at that key, the child being
invoked with the key itself as the name hint. -/
def fieldRel (v : JSVal) (kg : String × Guard) (ka : String × JSVal) : Prop :=
  kg.1 = ka.1 ∧ invoke kg.2 (v.get kg.1) (JSVal.str kg.1) = Except.ok ka.2

theorem invoke_schema_obj (t : String) (fields : List (String × Guard))
    (kvs : List (String × JSVal)) (name : JSVal) :
    invoke (Guard.schema t fields) (JSVal.obj kvs) name =
      (invokeFields fields (JSVal.obj kvs)).map JSVal.obj := by
  simp [invoke, schemaTarget, jsIsObject, jsIsArray]

theorem invoke_schema_undef (t : String) (fields : List (String × Guard)) (name : JSVal) :
    invoke (Guard.schema t fields) JSVal.undef name =
      (invokeFields fields (JSVal.obj [])).map JSVal.obj := by
  simp [invoke, schemaTarget, jsIsObject, jsIsArray]

theorem invoke_schema_reject (t : String) (fields : List (String × Guard))
    (value name : JSVal) (h1 : value ≠ JSVal.undef) (h2 : ∀ kvs, value ≠ JSVal.obj kvs) :
    invoke (Guard.schema t fields) value name =
      Except.error ⟨keySubst t name value⟩ := by
  cases value with
  | undef => exact absurd rfl h1
  | obj kvs => exact absurd rfl (h2 kvs)
  | _ => simp [invoke, schemaTarget, jsIsObject, jsIsArray]

theorem invokeFields_ok :
    ∀ (fields : List (String × Guard)) (v : JSVal) (assocs : List (String × JSVal)),
      invokeFields fields v = Except.ok assocs → List.Forall₂ (fieldRel v) fields assocs
  | [], v, assocs, h => by
      simp only [invokeFields, Except.ok.injEq] at h
      rw [← h]
      exact List.Forall₂.nil
  | (key, g) :: rest, v, assocs, h => by
      cases hg : invoke g (v.get key) (JSVal.str key) with
      | error e => simp [invokeFields, hg] at h
      | ok x =>
        cases hr : invokeFields rest v with
        | error e => simp [invokeFields, hg, hr] at h
        | ok xs =>
          simp only [invokeFields, hg, hr, Except.ok.injEq] at h
          rw [← h]
          exact List.Forall₂.cons ⟨rfl, hg⟩ (invokeFields_ok rest v xs hr)

theorem invokeFields_of_forall :
    ∀ (fields : List (String × Guard)) (v : JSVal) (assocs : List (String × JSVal)),
      List.Forall₂ (fieldRel v) fields assocs → invokeFields fields v = Except.ok assocs
  | [], _, [], _ => rfl
  | [], _, _ :: _, h => by cases h
  | _ :: _, _, [], h => by cases h
  | (key, g) :: rest, v, (k2, x) :: xs, h => by
      cases h with
      | cons h1 h2 =>
        obtain ⟨hk, hx⟩ := h1
        simp only at hk
        subst hk
        simp only at hx
        simp [invokeFields, hx, invokeFields_of_forall rest v xs h2]

theorem forall2_fst_eq {β γ : Type} (rel : (String × β) → (String × γ) → Prop)
    (hrel : ∀ a b, rel a b → a.1 = b.1) :
    ∀ (l1 : List (String × β)) (l2 : List (String × γ)),
      List.Forall₂ rel l1 l2 → l2.map Prod.fst = l1.map Prod.fst
  | [], [], _ => rfl
  | [], _ :: _, h => by cases h
  | _ :: _, [], h => by cases h
  | a :: l1, b :: l2, h => by
      cases h with
      | cons h1 h2 =>
        simp [hrel a b h1, forall2_fst_eq rel hrel l1 l2 h2]

theorem lookup_eq_none_of_not_mem :
    ∀ (assocs : List (String × JSVal)) (k : String),
      k ∉ assocs.map Prod.fst → assocs.lookup k = none
  | [], _, _ => rfl
  | (k2, x) :: rest, k, h => by
      have hne : k ≠ k2 := fun he => h (by simp [he])
      have hrest : k ∉ rest.map Prod.fst := fun hm => h (by simp [hm])
      have hb : (k == k2) = false := by simp [hne]
      simp [List.lookup, hb, lookup_eq_none_of_not_mem rest k hrest]

theorem invoke_tuple_arr (t : String) (gs : List Guard) (xs : List JSVal) (name : JSVal) :
    invoke (Guard.tuple t gs) (JSVal.arr xs) name =
      (invokeTuple gs (JSVal.arr xs) 0).map JSVal.arr := by
  simp [invoke, arrayTarget, jsIsArray]

theorem invoke_tuple_undef (t : String) (gs : List Guard) (name : JSVal) :
    invoke (Guard.tuple t gs) JSVal.undef name =
      (invokeTuple gs (JSVal.arr []) 0).map JSVal.arr := by
  simp [invoke, arrayTarget, jsIsArray]

theorem invoke_tuple_reject (t : String) (gs : List Guard) (value name : JSVal)
    (h1 : value ≠ JSVal.undef) (h2 : ∀ xs, value ≠ JSVal.arr xs) :
    invoke (Guard.tuple t gs) value name = Except.error ⟨keySubst t name value⟩ := by
  cases value with
  | undef => exact absurd rfl h1
  | arr xs => exact absurd rfl (h2 xs)
  | _ => simp [invoke, arrayTarget, jsIsArray]

theorem invokeTuple_ok :
    ∀ (gs : List Guard) (v : JSVal) (i : Nat) (ys : List JSVal),
      invokeTuple gs v i = Except.ok ys →
      ys.length = gs.length ∧
        ∀ j, j < gs.length →
          invoke (gs.getD j (Guard.anyOf [])) (v.item (i + j)) (JSVal.num ((i + j : Nat) : Int))
            = Except.ok (ys.getD j JSVal.undef)
  | [], v, i, ys, h => by
      simp only [invokeTuple, Except.ok.injEq] at h
      rw [← h]
      exact ⟨rfl, fun j hj => absurd hj (by simp)⟩
  | g :: gs, v, i, ys, h => by
      cases hg : invoke g (v.item i) (JSVal.num (i : Int)) with
      | error e => simp [invokeTuple, hg] at h
      | ok y =>
        cases hr : invokeTuple gs v (i + 1) with
        | error e => simp [invokeTuple, hg, hr] at h
        | ok ys2 =>
          simp only [invokeTuple, hg, hr, Except.ok.injEq] at h
          obtain ⟨hl, hall⟩ := invokeTuple_ok gs v (i + 1) ys2 hr
          rw [← h]
          refine ⟨by simp [hl], ?_⟩
          intro j hj
          cases j with
          | zero => simpa using hg
          | succ j2 =>
            have harith : i + (j2 + 1) = (i + 1) + j2 := by omega
            have := hall j2 (by simpa using hj)
            simp only [List.getD_cons_succ, harith]
            exact this

theorem invokeTuple_of_forall :
    ∀ (gs : List Guard) (w : JSVal) (i : Nat) (ys : List JSVal),
      ys.length = gs.length →
      (∀ j, j < gs.length →
        invoke (gs.getD j (Guard.anyOf [])) (w.item (i + j)) (JSVal.num ((i + j : Nat) : Int))
          = Except.ok (ys.getD j JSVal.undef)) →
      invokeTuple gs w i = Except.ok ys
  | [], _, _, [], _, _ => rfl
  | [], _, _, _ :: _, hl, _ => by simp at hl
  | _ :: _, _, _, [], hl, _ => by simp at hl
  | g :: gs, w, i, y :: ys, hl, hall => by
      have h0 := hall 0 (by simp)
      simp only [List.getD_cons_zero, Nat.add_zero] at h0
      have hrest := invokeTuple_of_forall gs w (i + 1) ys (by simpa using hl) (fun j hj => by
        have harith : (i + 1) + j = i + (j + 1) := by omega
        have := hall (j + 1) (by simpa using hj)
        simp only [List.getD_cons_succ] at this
        simp only [harith]
        exact this)
      simp [invokeTuple, h0, hrest]

theorem invoke_garray_arr (t : String) (g : Guard) (xs : List JSVal) (name : JSVal) :
    invoke (Guard.garray t g) (JSVal.arr xs) name =
      (mapWithIndex (invoke g) xs 0).map JSVal.arr := by
  simp [invoke, arrayTarget, jsIsArray, JSVal.elems]

theorem invoke_garray_undef (t : String) (g : Guard) (name : JSVal) :
    invoke (Guard.garray t g) JSVal.undef name =
      (mapWithIndex (invoke g) [] 0).map JSVal.arr := by
  simp [invoke, arrayTarget, jsIsArray, JSVal.elems]

theorem invoke_garray_reject (t : String) (g : Guard) (value name : JSVal)
    (h1 : value ≠ JSVal.undef) (h2 : ∀ xs, value ≠ JSVal.arr xs) :
    invoke (Guard.garray t g) value name = Except.error ⟨keySubst t name value⟩ := by
  cases value with
  | undef => exact absurd rfl h1
  | arr xs => exact absurd rfl (h2 xs)
  | _ => simp [invoke, arrayTarget, jsIsArray]

theorem mapWithIndex_ok (f : JSVal → JSVal → Except TypeError JSVal) :
    ∀ (xs : List JSVal) (i : Nat) (ys : List JSVal),
      mapWithIndex f xs i = Except.ok ys →
      ys.length = xs.length ∧
        ∀ j, j < xs.length →
          f (xs.getD j JSVal.undef) (JSVal.num ((i + j : Nat) : Int))
            = Except.ok (ys.getD j JSVal.undef)
  | [], i, ys, h => by
      simp only [mapWithIndex, Except.ok.injEq] at h
      rw [← h]
      exact ⟨rfl, fun j hj => absurd hj (by simp)⟩
  | x :: xs, i, ys, h => by
      cases hx : f x (JSVal.num (i : Int)) with
      | error e => simp [mapWithIndex, hx] at h
      | ok y =>
        cases hr : mapWithIndex f xs (i + 1) with
        | error e => simp [mapWithIndex, hx, hr] at h
        | ok ys2 =>
          simp only [mapWithIndex, hx, hr, Except.ok.injEq] at h
          obtain ⟨hl, hall⟩ := mapWithIndex_ok f xs (i + 1) ys2 hr
          rw [← h]
          refine ⟨by simp [hl], ?_⟩
          intro j hj
          cases j with
          | zero => simpa using hx
          | succ j2 =>
            have harith : i + (j2 + 1) = (i + 1) + j2 := by omega
            have := hall j2 (by simpa using hj)
            simp only [List.getD_cons_succ, harith]
            exact this

theorem mapWithIndex_err (f : JSVal → JSVal → Except TypeError JSVal) :
    ∀ (xs : List JSVal) (i j : Nat) (e : TypeError),
      j < xs.length →
      (∀ k, k < j → ∃ y, f (xs.getD k JSVal.undef) (JSVal.num ((i + k : Nat) : Int)) = Except.ok y) →
      f (xs.getD j JSVal.undef) (JSVal.num ((i + j : Nat) : Int)) = Except.error e →
      mapWithIndex f xs i = Except.error e
  | [], _, j, _, hj, _, _ => absurd hj (by simp)
  | x :: xs, i, 0, e, _, _, he => by
      simp only [List.getD_cons_zero, Nat.add_zero] at he
      simp [mapWithIndex, he]
  | x :: xs, i, j + 1, e, hj, hpre, he => by
      obtain ⟨y, hy⟩ := hpre 0 (by omega)
      simp only [List.getD_cons_zero, Nat.add_zero] at hy
      have herec : f (xs.getD j JSVal.undef) (JSVal.num (((i + 1) + j : Nat) : Int))
          = Except.error e := by
        have harith : (i + 1) + j = i + (j + 1) := by omega
        simp only [List.getD_cons_succ] at he
        simp only [harith]
        exact he
      have hrec := mapWithIndex_err f xs (i + 1) j e (by simpa using hj)
        (fun k hk => by
          have harith2 : (i + 1) + k = i + (k + 1) := by omega
          obtain ⟨y2, hy2⟩ := hpre (k + 1) (by omega)
          simp only [List.getD_cons_succ] at hy2
          exact ⟨y2, by simp only [harith2]; exact hy2⟩)
        herec
      simp [mapWithIndex, hy, hrec]

theorem mapWithIndex_idem (f : JSVal → JSVal → Except TypeError JSVal)
    (hf : ∀ x (i : Nat) y, f x (JSVal.num (i : Int)) = Except.ok y →
      f y (JSVal.num (i : Int)) = Except.ok y) :
    ∀ (xs : List JSVal) (i : Nat) (ys : List JSVal),
      mapWithIndex f xs i = Except.ok ys → mapWithIndex f ys i = Except.ok ys
  | [], i, ys, h => by
      simp only [mapWithIndex, Except.ok.injEq] at h
      rw [← h]
      rfl
  | x :: xs, i, ys, h => by
      cases hx : f x (JSVal.num (i : Int)) with
      | error e => simp [mapWithIndex, hx] at h
      | ok y =>
        cases hr : mapWithIndex f xs (i + 1) with
        | error e => simp [mapWithIndex, hx, hr] at h
        | ok ys2 =>
          simp only [mapWithIndex, hx, hr, Except.ok.injEq] at h
          rw [← h]
          simp [mapWithIndex, hf x i y hx, mapWithIndex_idem f hf xs (i + 1) ys2 hr]

theorem get_obj_cons_self (key : String) (x : JSVal) (xs : List (String × JSVal)) :
    (JSVal.obj ((key, x) :: xs)).get key = x := by
  simp [JSVal.get, List.lookup]

theorem get_obj_cons_ne (key k2 : String) (x : JSVal) (xs : List (String × JSVal))
    (h : k2 ≠ key) :
    (JSVal.obj ((key, x) :: xs)).get k2 = (JSVal.obj xs).get k2 := by
  have hb : (k2 == key) = false := by simp [h]
  simp [JSVal.get, List.lookup, hb]

theorem invoke_schema_ok (t : String) (fields : List (String × Guard)) (v name out : JSVal)
    (h : invoke (Guard.schema t fields) v name = Except.ok out) :
    ∃ assocs, invokeFields fields (schemaTarget v) = Except.ok assocs ∧
      out = JSVal.obj assocs := by
  have hform : invoke (Guard.schema t fields) v name
      = (invokeFields fields (schemaTarget v)).map JSVal.obj := by
    cases v with
    | undef => exact invoke_schema_undef t fields name
    | obj kvs => exact invoke_schema_obj t fields kvs name
    | null => rw [invoke_schema_reject t fields JSVal.null name (by simp) (by simp)] at h; simp at h
    | bool b => rw [invoke_schema_reject t fields (JSVal.bool b) name (by simp) (by simp)] at h; simp at h
    | num n => rw [invoke_schema_reject t fields (JSVal.num n) name (by simp) (by simp)] at h; simp at h
    | str s => rw [invoke_schema_reject t fields (JSVal.str s) name (by simp) (by simp)] at h; simp at h
    | arr xs => rw [invoke_schema_reject t fields (JSVal.arr xs) name (by simp) (by simp)] at h; simp at h
    | func n => rw [invoke_schema_reject t fields (JSVal.func n) name (by simp) (by simp)] at h; simp at h
  rw [hform] at h
  cases hif : invokeFields fields (schemaTarget v) with
  | error e =>
      rw [hif] at h
      exact absurd (show (Except.error e : Except TypeError JSVal) = Except.ok out from h) (by simp)
  | ok assocs =>
      rw [hif] at h
      have h2 : Except.ok (JSVal.obj assocs) = Except.ok out := h
      exact ⟨assocs, rfl, (Except.ok.inj h2).symm⟩

theorem invoke_tuple_ok_shape (t : String) (gs : List Guard) (v name out : JSVal)
    (h : invoke (Guard.tuple t gs) v name = Except.ok out) :
    ∃ ys, invokeTuple gs (arrayTarget v) 0 = Except.ok ys ∧ out = JSVal.arr ys := by
  have hform : invoke (Guard.tuple t gs) v name
      = (invokeTuple gs (arrayTarget v) 0).map JSVal.arr := by
    cases v with
    | undef => exact invoke_tuple_undef t gs name
    | arr xs => exact invoke_tuple_arr t gs xs name
    | null => rw [invoke_tuple_reject t gs JSVal.null name (by simp) (by simp)] at h; simp at h
    | bool b => rw [invoke_tuple_reject t gs (JSVal.bool b) name (by simp) (by simp)] at h; simp at h
    | num n => rw [invoke_tuple_reject t gs (JSVal.num n) name (by simp) (by simp)] at h; simp at h
    | str s => rw [invoke_tuple_reject t gs (JSVal.str s) name (by simp) (by simp)] at h; simp at h
    | obj kvs => rw [invoke_tuple_reject t gs (JSVal.obj kvs) name (by simp) (by simp)] at h; simp at h
    | func n => rw [invoke_tuple_reject t gs (JSVal.func n) name (by simp) (by simp)] at h; simp at h
  rw [hform] at h
  cases hit : invokeTuple gs (arrayTarget v) 0 with
  | error e =>
      rw [hit] at h
      exact absurd (show (Except.error e : Except TypeError JSVal) = Except.ok out from h) (by simp)
  | ok ys =>
      rw [hit] at h
      have h2 : Except.ok (JSVal.arr ys) = Except.ok out := h
      exact ⟨ys, rfl, (Except.ok.inj h2).symm⟩

theorem invoke_garray_ok_shape (t : String) (g : Guard) (v name out : JSVal)
    (h : invoke (Guard.garray t g) v name = Except.ok out) :
    ∃ ys, mapWithIndex (invoke g) (arrayTarget v).elems 0 = Except.ok ys ∧
      out = JSVal.arr ys := by
  have hform : invoke (Guard.garray t g) v name
      = (mapWithIndex (invoke g) (arrayTarget v).elems 0).map JSVal.arr := by
    cases v with
    | undef => exact invoke_garray_undef t g name
    | arr xs => exact invoke_garray_arr t g xs name
    | null => rw [invoke_garray_reject t g JSVal.null name (by simp) (by simp)] at h; simp at h
    | bool b => rw [invoke_garray_reject t g (JSVal.bool b) name (by simp) (by simp)] at h; simp at h
    | num n => rw [invoke_garray_reject t g (JSVal.num n) name (by simp) (by simp)] at h; simp at h
    | str s => rw [invoke_garray_reject t g (JSVal.str s) name (by simp) (by simp)] at h; simp at h
    | obj kvs => rw [invoke_garray_reject t g (JSVal.obj kvs) name (by simp) (by simp)] at h; simp at h
    | func n => rw [invoke_garray_reject t g (JSVal.func n) name (by simp) (by simp)] at h; simp at h
  rw [hform] at h
  cases hm : mapWithIndex (invoke g) (arrayTarget v).elems 0 with
  | error e =>
      rw [hm] at h
      exact absurd (show (Except.error e : Except TypeError JSVal) = Except.ok out from h) (by simp)
  | ok ys =>
      rw [hm] at h
      have h2 : Except.ok (JSVal.arr ys) = Except.ok out := h
      exact ⟨ys, rfl, (Except.ok.inj h2).symm⟩

theorem invokeFields_err :
    ∀ (pre : List (String × Guard)) (key : String) (g : Guard)
      (post : List (String × Guard)) (v : JSVal) (e : TypeError),
      (∀ kg ∈ pre, ∃ x, invoke kg.2 (v.get kg.1) (JSVal.str kg.1) = Except.ok x) →
      invoke g (v.get key) (JSVal.str key) = Except.error e →
      invokeFields (pre ++ (key, g) :: post) v = Except.error e
  | [], key, g, post, v, e, _, he => by simp [invokeFields, he]
  | (k2, g2) :: pre, key, g, post, v, e, hpre, he => by
      obtain ⟨x, hx⟩ := hpre (k2, g2) (by simp)
      rw [List.cons_append]
      simp [invokeFields, hx,
        invokeFields_err pre key g post v e (fun kg h => hpre kg (by simp [h])) he]

theorem invokeFields_congr :
    ∀ (fields : List (String × Guard)) (v w : JSVal),
      (∀ kg ∈ fields, v.get kg.1 = w.get kg.1) →
      invokeFields fields v = invokeFields fields w
  | [], _, _, _ => rfl
  | (key, g) :: rest, v, w, h => by
      have h0 : v.get key = w.get key := h (key, g) (by simp)
      have hrest := invokeFields_congr rest v w (fun kg hm => h kg (by simp [hm]))
      simp [invokeFields, h0, hrest]

theorem invokeFieldsNamed_err :
    ∀ (pre : List (String × Guard)) (key : String) (g : Guard)
      (post : List (String × Guard)) (v name : JSVal) (e : TypeError),
      (∀ kg ∈ pre, ∃ x, invoke kg.2 (v.get kg.1) name = Except.ok x) →
      invoke g (v.get key) name = Except.error e →
      invokeFieldsNamed (pre ++ (key, g) :: post) v name = Except.error e
  | [], key, g, post, v, name, e, _, he => by simp [invokeFieldsNamed, he]
  | (k2, g2) :: pre, key, g, post, v, name, e, hpre, he => by
      obtain ⟨x, hx⟩ := hpre (k2, g2) (by simp)
      rw [List.cons_append]
      simp [invokeFieldsNamed, hx,
        invokeFieldsNamed_err pre key g post v name e (fun kg h => hpre kg (by simp [h])) he]

theorem schemaExtendable_accept (t : String) (fields : List (String × Guard)) (v name : JSVal)
    (hv : jsIsObject (schemaTarget v) = true) (ha : jsIsArray (schemaTarget v) = false) :
    SchemaExtendable t fields v name
      = (invokeFieldsNamed fields (schemaTarget v) name).map JSVal.obj := by
  cases v <;> simp_all [SchemaExtendable, schemaTarget, jsIsUndefined, jsIsObject, jsIsArray]

/-- Key lists without duplicates, as the descriptor of any JS object
literal necessarily is (a JS object cannot own the same key twice). -/
def distinctKeys : List String → Bool
  | [] => true
  | k :: ks => !(ks.contains k) && distinctKeys ks

mutual

/-- A guard whose declared defaults are themselves acceptable: a declared
primitive default either is the absent marker or satisfies the guard's
own predicate, recursively through schemas, tuples and array guards;
union guards and opaque custom validators are excluded.  Guards in this
class are exactly the ones for which idempotence is provable (see the
theorems on claim C5: a default that fails its own predicate, or an
`AnyOf` whose earlier alternative accepts a later alternative's output,
breaks idempotence). -/
def selfValid : Guard → Bool
  | Guard.primitive _ _ none => true
  | Guard.primitive isValid _ (some d) => decide (d = JSVal.undef) || isValid d
  | Guard.schema _ fields => distinctKeys (fields.map Prod.fst) && selfValidFields fields
  | Guard.garray _ g => selfValid g
  | Guard.tuple _ gs => selfValidList gs
  | Guard.anyOf _ => false
  | Guard.custom _ => false
termination_by structural g => g

/-- `selfValid` for every child guard of a schema descriptor. -/
def selfValidFields : List (String × Guard) → Bool
  | [] => true
  | (_, g) :: rest => selfValid g && selfValidFields rest
termination_by structural l => l

/-- `selfValid` for every guard of a tuple descriptor. -/
def selfValidList : List Guard → Bool
  | [] => true
  | g :: gs => selfValid g && selfValidList gs
termination_by structural l => l

end

mutual

theorem invoke_idem :
    ∀ (g : Guard), selfValid g = true →
      ∀ (v name out : JSVal), invoke g v name = Except.ok out →
        invoke g out name = Except.ok out
  | Guard.primitive p t defaults, hsv, v, name, out, h => by
      cases defaults with
      | none =>
          rw [invoke_primitive_none] at h
          cases hp : p v with
          | false => rw [hp] at h; simp at h
          | true =>
              rw [hp] at h
              simp at h
              rw [← h]
              rw [invoke_primitive_none]
              simp [hp]
      | some d =>
          by_cases hv : v = JSVal.undef
          · subst hv
            rw [invoke_primitive_default] at h
            have hd := Except.ok.inj h
            subst hd
            by_cases hdu : d = JSVal.undef
            · rw [hdu]
              exact invoke_primitive_default p t JSVal.undef name
            · have hpd : p d = true := by
                simpa [selfValid, hdu] using hsv
              rw [invoke_primitive_not_undef p t (some d) d name hdu]
              simp [hpd]
          · rw [invoke_primitive_not_undef p t (some d) v name hv] at h
            cases hp : p v with
            | false => rw [hp] at h; simp at h
            | true =>
                rw [hp] at h
                simp at h
                rw [← h]
                rw [invoke_primitive_not_undef p t (some d) v name hv]
                simp [hp]
  | Guard.schema t fields, hsv, v, name, out, h => by
      have hsv2 : distinctKeys (fields.map Prod.fst) = true ∧ selfValidFields fields = true := by
        simpa [selfValid, Bool.and_eq_true] using hsv
      obtain ⟨assocs, hif, hout⟩ := invoke_schema_ok t fields v name out h
      subst hout
      rw [invoke_schema_obj]
      rw [invokeFields_idem fields hsv2.2 hsv2.1 (schemaTarget v) assocs hif]
      rfl
  | Guard.garray t g, hsv, v, name, out, h => by
      have hg : selfValid g = true := by simpa [selfValid] using hsv
      obtain ⟨ys, hm, hout⟩ := invoke_garray_ok_shape t g v name out h
      subst hout
      rw [invoke_garray_arr]
      rw [mapWithIndex_idem (invoke g)
        (fun x i y hxy => invoke_idem g hg x (JSVal.num (i : Int)) y hxy)
        ((arrayTarget v).elems) 0 ys hm]
      rfl
  | Guard.tuple t gs, hsv, v, name, out, h => by
      have hgs : selfValidList gs = true := by simpa [selfValid] using hsv
      obtain ⟨ys, hit, hout⟩ := invoke_tuple_ok_shape t gs v name out h
      subst hout
      rw [invoke_tuple_arr]
      rw [invokeTuple_idem gs hgs (arrayTarget v) 0 ys hit (JSVal.arr ys)
        (fun j hj => by simp [JSVal.item])]
      rfl
  | Guard.anyOf gs, hsv, _, _, _, _ => by simp [selfValid] at hsv
  | Guard.custom f, hsv, _, _, _, _ => by simp [selfValid] at hsv
termination_by structural g => g

theorem invokeFields_idem :
    ∀ (fields : List (String × Guard)), selfValidFields fields = true →
      distinctKeys (fields.map Prod.fst) = true →
      ∀ (v : JSVal) (assocs : List (String × JSVal)),
        invokeFields fields v = Except.ok assocs →
        invokeFields fields (JSVal.obj assocs) = Except.ok assocs
  | [], _, _, v, assocs, h => by
      simp only [invokeFields, Except.ok.injEq] at h
      rw [← h]
      rfl
  | (key, g) :: rest, hsf, hdk, v, assocs, h => by
      have hsf2 : selfValid g = true ∧ selfValidFields rest = true := by
        simpa [selfValidFields, Bool.and_eq_true] using hsf
      simp only [List.map_cons, distinctKeys, Bool.and_eq_true] at hdk
      have hks : key ∉ rest.map Prod.fst := by
        simpa using hdk.1
      cases hg : invoke g (v.get key) (JSVal.str key) with
      | error e => simp [invokeFields, hg] at h
      | ok x =>
        cases hr : invokeFields rest v with
        | error e => simp [invokeFields, hg, hr] at h
        | ok xs =>
          simp only [invokeFields, hg, hr, Except.ok.injEq] at h
          rw [← h]
          have hx2 : invoke g x (JSVal.str key) = Except.ok x :=
            invoke_idem g hsf2.1 (v.get key) (JSVal.str key) x hg
          have hcongr : invokeFields rest (JSVal.obj ((key, x) :: xs))
              = invokeFields rest (JSVal.obj xs) :=
            invokeFields_congr rest _ _ (fun kg hm => by
              have hne : kg.1 ≠ key := fun he => hks (he ▸ List.mem_map_of_mem Prod.fst hm)
              exact get_obj_cons_ne key kg.1 x xs hne)
          have hrest2 : invokeFields rest (JSVal.obj xs) = Except.ok xs :=
            invokeFields_idem rest hsf2.2 hdk.2 v xs hr
          simp [invokeFields, get_obj_cons_self key x xs, hx2, hcongr, hrest2]
termination_by structural l => l

theorem invokeTuple_idem :
    ∀ (gs : List Guard), selfValidList gs = true →
      ∀ (v : JSVal) (i : Nat) (ys : List JSVal),
        invokeTuple gs v i = Except.ok ys →
        ∀ (w : JSVal), (∀ j, j < gs.length → w.item (i + j) = ys.getD j JSVal.undef) →
          invokeTuple gs w i = Except.ok ys
  | [], _, v, i, ys, h, w, _ => by
      simp only [invokeTuple, Except.ok.injEq] at h
      rw [← h]
      rfl
  | g :: gs, hsv, v, i, ys, h, w, hw => by
      have hsv2 : selfValid g = true ∧ selfValidList gs = true := by
        simpa [selfValidList, Bool.and_eq_true] using hsv
      cases hg : invoke g (v.item i) (JSVal.num (i : Int)) with
      | error e => simp [invokeTuple, hg] at h
      | ok y =>
        cases hr : invokeTuple gs v (i + 1) with
        | error e => simp [invokeTuple, hg, hr] at h
        | ok ys2 =>
          simp only [invokeTuple, hg, hr, Except.ok.injEq] at h
          rw [← h]
          rw [← h] at hw
          have hw0 : w.item i = y := by
            have := hw 0 (by simp)
            simpa using this
          have hy2 : invoke g y (JSVal.num (i : Int)) = Except.ok y :=
            invoke_idem g hsv2.1 (v.item i) (JSVal.num (i : Int)) y hg
          have hrec : invokeTuple gs w (i + 1) = Except.ok ys2 :=
            invokeTuple_idem gs hsv2.2 v (i + 1) ys2 hr w (fun j hj => by
              have harith : (i + 1) + j = i + (j + 1) := by omega
              have := hw (j + 1) (by simpa using hj)
              simp only [List.getD_cons_succ] at this
              rw [harith]
              exact this)
          simp [invokeTuple, hw0, hy2, hrec]
termination_by structural l => l

end

/-- Claim C1, counterexample: the claim quantifies over every primitive
guard constructed with a declared default; in the prototype-based `Guard`
of `lib/guards.js` (lines 62-91), a string guard extended with the
declared default `7` does not return `7` on absent input — the
substituted default is re-validated by `isValid` (there is no `else`
between the defaulting step and the predicate test) and the invocation
raises `TypeError: String expected instead of number `7``. -/
theorem C1_counterexample :
    GuardExtendable jsIsString stringMessage (some (JSVal.num 7)) JSVal.undef JSVal.undef
      = Except.error ⟨"String expected instead of number `7`"⟩ ∧
    GuardExtendable jsIsString stringMessage (some (JSVal.num 7)) JSVal.undef JSVal.undef
      ≠ Except.ok (JSVal.num 7) := by
  decide

/-- Claim C1, amended: for every primitive guard constructed with a
declared default value D whose predicate rejects D, invoking with the
absent marker returns exactly D without running the predicate against D
in the closure-based implementations — the options-based `guard` of
`core.js` and the defaultValue-parameter guards (`GString`) — while in
the prototype-based `Guard` evolution of `lib/guards.js` the substituted
default is itself validated, so the invocation raises the guard's
rendered template instead of returning D. -/
theorem C1_default_not_revalidated (p : JSVal → Bool) (t m : String) (D name : JSVal)
    (h : p D = false) :
    invoke (Guard.primitive p t (some D)) JSVal.undef name = Except.ok D ∧
    GString D m JSVal.undef name = Except.ok D ∧
    GuardExtendable p t (some D) JSVal.undef name
      = Except.error ⟨primSubst t name D⟩ := by
  refine ⟨invoke_primitive_default p t D name, rfl, ?_⟩
  simp [GuardExtendable, h]

/-- Claim C1, witness: the amended claim at the concrete string guard
with declared default `7` (which fails the string predicate). -/
theorem C1_default_not_revalidated_witness :
    invoke (Guard.primitive jsIsString stringMessage (some (JSVal.num 7))) JSVal.undef JSVal.undef
      = Except.ok (JSVal.num 7) ∧
    GString (JSVal.num 7) stringMessage JSVal.undef JSVal.undef = Except.ok (JSVal.num 7) ∧
    GuardExtendable jsIsString stringMessage (some (JSVal.num 7)) JSVal.undef JSVal.undef
      = Except.error ⟨primSubst stringMessage JSVal.undef (JSVal.num 7)⟩ :=
  C1_default_not_revalidated jsIsString stringMessage stringMessage (JSVal.num 7) JSVal.undef
    (by decide)

/-- Claim C5, counterexample: guards are not idempotent on their own
output in general.  The core primitive guard `Guard(isString)(\x7b
defaults: 7 \x7d)` — a default the predicate rejects, which claim C1
explicitly permits — maps the absent marker to `7` without raising, yet
re-applying the guard to that output raises, so `g(g(x))` raises for an
`x` on which `g(x)` does not. -/
theorem C5_counterexample :
    invoke (Guard.primitive jsIsString stringMessage (some (JSVal.num 7))) JSVal.undef JSVal.undef
      = Except.ok (JSVal.num 7) ∧
    invoke (Guard.primitive jsIsString stringMessage (some (JSVal.num 7))) (JSVal.num 7) JSVal.undef
      = Except.error ⟨"String expected instead of number `7`"⟩ := by
  decide

/-- Claim C5, amended: every guard in the `selfValid` class — built
without `AnyOf` and without opaque custom validators, with
duplicate-free schema keys, and whose declared defaults are themselves
acceptable to their own guards — is idempotent on its own output: if
`g(x)` does not raise then `g(g(x))` does not raise and returns `g(x)`
unchanged.  (Outside this class idempotence fails: see the
counterexample for an invalid default, and an `AnyOf` whose earlier
alternative accepts a later alternative's output re-normalizes it.) -/
theorem C5_idempotent_selfValid (g : Guard) (hsv : selfValid g = true)
    (v name out : JSVal) (h : invoke g v name = Except.ok out) :
    invoke g out name = Except.ok out :=
  invoke_idem g hsv v name out h

/-- Claim C5, witness: the documentation's `Point` schema normalizes
`\x7bx: 17, z: 50\x7d` to `\x7bx: 17, y: 0\x7d`, and re-applying `Point`
to that output returns it unchanged. -/
theorem C5_idempotent_selfValid_witness :
    invoke PointGuard (JSVal.obj [("x", JSVal.num 17), ("y", JSVal.num 0)]) JSVal.undef
      = Except.ok (JSVal.obj [("x", JSVal.num 17), ("y", JSVal.num 0)]) :=
  C5_idempotent_selfValid PointGuard (by decide)
    (JSVal.obj [("x", JSVal.num 17), ("z", JSVal.num 50)]) JSVal.undef
    (JSVal.obj [("x", JSVal.num 17), ("y", JSVal.num 0)]) (by decide)

/-- Claim C6, counterexample: in the defaultValue-parameter evolution
(`GString`, `lib/guards.js` lines 656-678) a guard built with no declared
default (`String()`, whose `defaultValue` falls back to `undefined`)
invoked with the absent marker returns `undefined` without running the
predicate and without raising, although the string predicate rejects
`undefined` — the library's own test asserts this
(``undefined` is fallback for default`). -/
theorem C6_counterexample :
    GString JSVal.undef stringMessage JSVal.undef JSVal.undef = Except.ok JSVal.undef ∧
    jsIsString JSVal.undef = false := by
  decide

/-- Claim C6, amended: in the options-based core `guard` and in the
prototype-based `Guard`, a guard with no declared default treats the
absent marker exactly like any other value — the predicate runs on it and
the guard raises the rendered template unless the predicate accepts it
(the equation below holds uniformly for every value, the absent marker
included); in the defaultValue-parameter guards (`GString`), however, an
absent value always takes the `defaultValue` (itself defaulting to
`undefined`) and is returned without validation, so those guards never
raise on absent input. -/
theorem C6_no_default_validates (p : JSVal → Bool) (t m : String)
    (value name defaultValue : JSVal) :
    invoke (Guard.primitive p t none) value name
      = (if p value = true then Except.ok value
         else Except.error ⟨primSubst t name value⟩) ∧
    GuardExtendable p t none value name
      = (if p value = true then Except.ok value
         else Except.error ⟨primSubst t name value⟩) ∧
    GString defaultValue m JSVal.undef name = Except.ok defaultValue := by
  refine ⟨?_, ?_, rfl⟩
  · rw [invoke_primitive_none]
    cases hp : p value <;> simp [hp]
  · cases hp : p value <;> simp [GuardExtendable, hp]

/-- Claim C2: for every Schema guard and every accepted input, the
normalized output object holds exactly the descriptor's keys — in
descriptor order, each bound to the child guard's result for the input's
value at that key (the absent marker when the key is missing, handled by
the child's own defaulting), and any key outside the descriptor is
absent from the output (its lookup yields nothing). -/
theorem C2_schema_exact_keys (t : String) (fields : List (String × Guard))
    (v name out : JSVal)
    (h : invoke (Guard.schema t fields) v name = Except.ok out) :
    ∃ assocs, out = JSVal.obj assocs ∧
      assocs.map Prod.fst = fields.map Prod.fst ∧
      (∀ key, key ∉ fields.map Prod.fst → assocs.lookup key = none) ∧
      List.Forall₂ (fieldRel (schemaTarget v)) fields assocs := by
  obtain ⟨assocs, hif, hout⟩ := invoke_schema_ok t fields v name out h
  have hfa := invokeFields_ok fields (schemaTarget v) assocs hif
  have hkeys : assocs.map Prod.fst = fields.map Prod.fst :=
    forall2_fst_eq (fieldRel (schemaTarget v)) (fun a b hr => hr.1) fields assocs hfa
  refine ⟨assocs, hout, hkeys, fun key hk => ?_, hfa⟩
  exact lookup_eq_none_of_not_mem assocs key (by rw [hkeys]; exact hk)

/-- Claim C2, witness: the documentation's `Point` schema on input
`\x7bx: 17, z: 50\x7d` — key `z` is stripped, key `y` takes its child's
default, and the output holds exactly the descriptor keys `x`, `y`. -/
theorem C2_schema_exact_keys_witness :
    ∃ assocs, JSVal.obj [("x", JSVal.num 17), ("y", JSVal.num 0)] = JSVal.obj assocs ∧
      assocs.map Prod.fst
        = ([("x", NumberGuard (some (JSVal.num 0))), ("y", NumberGuard (some (JSVal.num 0)))].map Prod.fst) ∧
      (∀ key, key ∉ ([("x", NumberGuard (some (JSVal.num 0))), ("y", NumberGuard (some (JSVal.num 0)))].map Prod.fst) →
        assocs.lookup key = none) ∧
      List.Forall₂ (fieldRel (schemaTarget (JSVal.obj [("x", JSVal.num 17), ("z", JSVal.num 50)])))
        [("x", NumberGuard (some (JSVal.num 0))), ("y", NumberGuard (some (JSVal.num 0)))] assocs :=
  C2_schema_exact_keys objectMessage
    [("x", NumberGuard (some (JSVal.num 0))), ("y", NumberGuard (some (JSVal.num 0)))]
    (JSVal.obj [("x", JSVal.num 17), ("z", JSVal.num 50)]) JSVal.undef
    (JSVal.obj [("x", JSVal.num 17), ("y", JSVal.num 0)]) (by decide)

/-- Claim C4: for every Tuple guard over n child guards and every
accepted input (absent, treated as the empty array, or any array), the
output is an array of length exactly n whose position i is child guard
i's result on the input's element i — the absent marker when the input
is shorter — and input elements beyond position n-1 do not contribute
(the output is determined by the first n positions alone and has length
n regardless of the input's length). -/
theorem C4_tuple_fixed_length (t : String) (gs : List Guard) (v name out : JSVal)
    (h : invoke (Guard.tuple t gs) v name = Except.ok out) :
    ∃ ys, out = JSVal.arr ys ∧ ys.length = gs.length ∧
      ∀ j, j < gs.length →
        invoke (gs.getD j (Guard.anyOf [])) ((arrayTarget v).item j) (JSVal.num (j : Int))
          = Except.ok (ys.getD j JSVal.undef) := by
  obtain ⟨ys, hit, hout⟩ := invoke_tuple_ok_shape t gs v name out h
  obtain ⟨hl, hall⟩ := invokeTuple_ok gs (arrayTarget v) 0 ys hit
  refine ⟨ys, hout, hl, fun j hj => ?_⟩
  simpa using hall j hj

/-- Claim C4, witness: a two-place tuple of defaulted number guards on a
three-element input keeps exactly two positions (the third input element
is discarded). -/
theorem C4_tuple_fixed_length_witness :
    ∃ ys, JSVal.arr [JSVal.num 7, JSVal.num 8] = JSVal.arr ys ∧
      ys.length = [NumberGuard (some (JSVal.num 0)), NumberGuard (some (JSVal.num 0))].length ∧
      ∀ j, j < [NumberGuard (some (JSVal.num 0)), NumberGuard (some (JSVal.num 0))].length →
        invoke ([NumberGuard (some (JSVal.num 0)), NumberGuard (some (JSVal.num 0))].getD j (Guard.anyOf []))
          ((arrayTarget (JSVal.arr [JSVal.num 7, JSVal.num 8, JSVal.num 9])).item j) (JSVal.num (j : Int))
          = Except.ok (ys.getD j JSVal.undef) :=
  C4_tuple_fixed_length arrayMessage
    [NumberGuard (some (JSVal.num 0)), NumberGuard (some (JSVal.num 0))]
    (JSVal.arr [JSVal.num 7, JSVal.num 8, JSVal.num 9]) JSVal.undef
    (JSVal.arr [JSVal.num 7, JSVal.num 8]) (by decide)

/-- Claim C7, counterexample: the claim also cites the early `GSchema`
of `lib/guards.js` (lines 804-816), whose structural check is only
`!isObject(value)` with no array exclusion; since arrays are
object-like, that Schema evolution accepts an array input and returns a
normalized object — the `Point` descriptor on input `[1]` yields
`\x7bx: 0, y: 0\x7d` — instead of raising a structural error, so "every
Schema guard raises on arrays" is false for that cited code. -/
theorem C7_counterexample :
    jsIsObject (JSVal.arr [JSVal.num 1]) = true ∧
    GSchemaOld objectMessage
      [("x", NumberGuard (some (JSVal.num 0))), ("y", NumberGuard (some (JSVal.num 0)))]
      (JSVal.arr [JSVal.num 1]) JSVal.undef
      = Except.ok (JSVal.obj [("x", JSVal.num 0), ("y", JSVal.num 0)]) := by
  decide

/-- Claim C7, amended: in the evolutions that carry the explicit array
exclusion — the core `GSchema` (`!isObject(value) || isArray(value)`)
and the prototype `Schema.isValid` — an array input, although
object-like in the host representation (witnessed by `jsIsObject`
accepting it), always raises the schema's structural error with the
schema's own template, and more generally every defined value that is
not a non-array object raises that structural error; in the early
`GSchema` of `lib/guards.js` (804-816), whose check is only
`!isObject(value)`, the same array input instead passes the
precondition and is normalized through the field loop like an object. -/
theorem C7_schema_rejects_arrays (t : String) (fields : List (String × Guard)) (name : JSVal) :
    (∀ xs, jsIsObject (JSVal.arr xs) = true ∧
      invoke (Guard.schema t fields) (JSVal.arr xs) name
        = Except.error ⟨keySubst t name (JSVal.arr xs)⟩) ∧
    (∀ value, jsIsUndefined value = false →
      (jsIsObject value = false ∨ jsIsArray value = true) →
      invoke (Guard.schema t fields) value name
        = Except.error ⟨keySubst t name value⟩) ∧
    (∀ xs, GSchemaOld t fields (JSVal.arr xs) name
        = (invokeFields fields (JSVal.arr xs)).map JSVal.obj) := by
  refine ⟨?_, ?_, ?_⟩
  · intro xs
    exact ⟨rfl, invoke_schema_reject t fields (JSVal.arr xs) name (by simp) (by simp)⟩
  · intro value hu hro
    cases value with
    | undef => simp [jsIsUndefined] at hu
    | obj kvs =>
        rcases hro with h1 | h2
        · simp [jsIsObject] at h1
        · simp [jsIsArray] at h2
    | null => exact invoke_schema_reject t fields JSVal.null name (by simp) (by simp)
    | bool b => exact invoke_schema_reject t fields (JSVal.bool b) name (by simp) (by simp)
    | num n => exact invoke_schema_reject t fields (JSVal.num n) name (by simp) (by simp)
    | str s => exact invoke_schema_reject t fields (JSVal.str s) name (by simp) (by simp)
    | arr xs => exact invoke_schema_reject t fields (JSVal.arr xs) name (by simp) (by simp)
    | func n => exact invoke_schema_reject t fields (JSVal.func n) name (by simp) (by simp)
  · intro xs
    simp [GSchemaOld, schemaTarget, jsIsObject]

/-- Claim C7, witness: the `Point` schema raises its structural error on
the array `[1]` (an object-like value) and on the string `"p"`, while
the early `GSchema` on the same array proceeds to field normalization
instead of raising. -/
theorem C7_schema_rejects_arrays_witness :
    (jsIsObject (JSVal.arr [JSVal.num 1]) = true ∧
      invoke PointGuard (JSVal.arr [JSVal.num 1]) JSVal.undef
        = Except.error ⟨keySubst objectMessage JSVal.undef (JSVal.arr [JSVal.num 1])⟩) ∧
    invoke PointGuard (JSVal.str "p") JSVal.undef
      = Except.error ⟨keySubst objectMessage JSVal.undef (JSVal.str "p")⟩ ∧
    GSchemaOld objectMessage
      [("x", NumberGuard (some (JSVal.num 0))), ("y", NumberGuard (some (JSVal.num 0)))]
      (JSVal.arr [JSVal.num 1]) JSVal.undef
      = (invokeFields
          [("x", NumberGuard (some (JSVal.num 0))), ("y", NumberGuard (some (JSVal.num 0)))]
          (JSVal.arr [JSVal.num 1])).map JSVal.obj := by
  refine ⟨?_, ?_, ?_⟩
  · exact (C7_schema_rejects_arrays objectMessage
      [("x", NumberGuard (some (JSVal.num 0))), ("y", NumberGuard (some (JSVal.num 0)))]
      JSVal.undef).1 [JSVal.num 1]
  · exact (C7_schema_rejects_arrays objectMessage
      [("x", NumberGuard (some (JSVal.num 0))), ("y", NumberGuard (some (JSVal.num 0)))]
      JSVal.undef).2.1 (JSVal.str "p") (by decide) (Or.inl (by decide))
  · exact (C7_schema_rejects_arrays objectMessage
      [("x", NumberGuard (some (JSVal.num 0))), ("y", NumberGuard (some (JSVal.num 0)))]
      JSVal.undef).2.2 [JSVal.num 1]

/-- Claim C8: for every Array guard and every array input, success means
the output is an array of the same length as the input whose element i
is the element guard's result on input element i (invoked with the index
as name hint); and when some element fails while all earlier elements
succeed, that element's own error is the Array guard's result — no
partial-success array is returned. -/
theorem C8_array_elementwise (t : String) (g : Guard) (xs : List JSVal) (name : JSVal) :
    (∀ out, invoke (Guard.garray t g) (JSVal.arr xs) name = Except.ok out →
      ∃ ys, out = JSVal.arr ys ∧ ys.length = xs.length ∧
        ∀ j, j < xs.length →
          invoke g (xs.getD j JSVal.undef) (JSVal.num (j : Int))
            = Except.ok (ys.getD j JSVal.undef)) ∧
    (∀ j e, j < xs.length →
      (∀ k, k < j → ∃ y, invoke g (xs.getD k JSVal.undef) (JSVal.num (k : Int)) = Except.ok y) →
      invoke g (xs.getD j JSVal.undef) (JSVal.num (j : Int)) = Except.error e →
      invoke (Guard.garray t g) (JSVal.arr xs) name = Except.error e) := by
  constructor
  · intro out h
    obtain ⟨ys, hm, hout⟩ := invoke_garray_ok_shape t g (JSVal.arr xs) name out h
    simp only [arrayTarget, JSVal.elems] at hm
    obtain ⟨hl, hall⟩ := mapWithIndex_ok (invoke g) xs 0 ys hm
    exact ⟨ys, hout, hl, fun j hj => by simpa using hall j hj⟩
  · intro j e hj hpre he
    rw [invoke_garray_arr]
    rw [mapWithIndex_err (invoke g) xs 0 j e hj
      (fun k hk => by simpa using hpre k hk) (by simpa using he)]
    rfl

/-- Claim C8, witness: the documentation's `Words = Array(String(""))`
keeps `["foo", "bar"]` unchanged with the input's length, and on
`["foo", 9]` the failing element's own string-guard error propagates. -/
theorem C8_array_elementwise_witness :
    (∃ ys, JSVal.arr [JSVal.str "foo", JSVal.str "bar"] = JSVal.arr ys ∧
      ys.length = [JSVal.str "foo", JSVal.str "bar"].length ∧
      ∀ j, j < [JSVal.str "foo", JSVal.str "bar"].length →
        invoke (Guard.primitive jsIsString stringMessage (some (JSVal.str "")))
          ([JSVal.str "foo", JSVal.str "bar"].getD j JSVal.undef) (JSVal.num (j : Int))
          = Except.ok (ys.getD j JSVal.undef)) ∧
    invoke (Guard.garray arrayMessage (Guard.primitive jsIsString stringMessage (some (JSVal.str ""))))
      (JSVal.arr [JSVal.str "foo", JSVal.num 9]) JSVal.undef
      = Except.error ⟨"String expected instead of number `9`"⟩ := by
  constructor
  · exact (C8_array_elementwise arrayMessage
      (Guard.primitive jsIsString stringMessage (some (JSVal.str "")))
      [JSVal.str "foo", JSVal.str "bar"] JSVal.undef).1
      (JSVal.arr [JSVal.str "foo", JSVal.str "bar"]) (by decide)
  · exact (C8_array_elementwise arrayMessage
      (Guard.primitive jsIsString stringMessage (some (JSVal.str "")))
      [JSVal.str "foo", JSVal.num 9] JSVal.undef).2 1 ⟨"String expected instead of number `9`"⟩
      (by decide)
      (fun k hk => by
        have hk0 : k = 0 := by omega
        subst hk0
        exact ⟨JSVal.str "foo", by decide⟩)
      (by decide)

/-- Claim C3: the AnyOf guard tries its alternatives in declared order
and returns the first success immediately — whenever the list splits as
`pre ++ g :: post` with every guard of `pre` failing and `g` succeeding,
the union's result is `g`'s result; the union raises if and only if
every alternative fails; and any error it raises is exactly its own
fixed generic template rendered with the raw value only, never any
alternative's specific message. -/
theorem C3_anyOf_first_match (alts : List Guard) (value name : JSVal) :
    (∀ (pre : List Guard) (g : Guard) (post : List Guard) (x : JSVal),
        alts = pre ++ g :: post →
        (∀ g2 ∈ pre, ∃ e, invoke g2 value name = Except.error e) →
        invoke g value name = Except.ok x →
        invoke (Guard.anyOf alts) value name = Except.ok x) ∧
    ((∃ e, invoke (Guard.anyOf alts) value name = Except.error e) ↔
      (∀ g ∈ alts, ∃ e, invoke g value name = Except.error e)) ∧
    (∀ e, invoke (Guard.anyOf alts) value name = Except.error e →
      e = ⟨anyOfSubst value⟩) := by
  refine ⟨?_, ?_, ?_⟩
  · rintro pre g post x rfl hpre hok
    rw [invoke_anyOf_eq]
    exact invokeAnyOf_first pre g post value name x hpre hok
  · rw [invoke_anyOf_eq]
    exact invokeAnyOf_fails_iff alts value name
  · intro e he
    rw [invoke_anyOf_eq] at he
    exact invokeAnyOf_error_eq alts value name e he

/-- Claim C3, witness: the documentation's `AnyOf(ObjectPoint,
ArrayPoint)` — the array input `[1]` fails the object alternative and is
normalized by the array alternative to `[1, 0]`; the number input `1`
fails both alternatives and raises exactly the fixed generic template
rendered with the raw value. -/
theorem C3_anyOf_first_match_witness :
    invoke (Guard.anyOf [PointGuard, ArrayPointGuard]) (JSVal.arr [JSVal.num 1]) JSVal.undef
      = Except.ok (JSVal.arr [JSVal.num 1, JSVal.num 0]) ∧
    invoke (Guard.anyOf [PointGuard, ArrayPointGuard]) (JSVal.num 1) JSVal.undef
      = Except.error ⟨anyOfSubst (JSVal.num 1)⟩ := by
  constructor
  · exact (C3_anyOf_first_match [PointGuard, ArrayPointGuard]
      (JSVal.arr [JSVal.num 1]) JSVal.undef).1
      [PointGuard] ArrayPointGuard [] (JSVal.arr [JSVal.num 1, JSVal.num 0]) rfl
      (fun g2 hg2 => by
        have hg : g2 = PointGuard := by simpa using hg2
        subst hg
        exact ⟨⟨"Object expected instead of object `1`"⟩, by decide⟩)
      (by decide)
  · obtain ⟨e, he⟩ := (C3_anyOf_first_match [PointGuard, ArrayPointGuard]
      (JSVal.num 1) JSVal.undef).2.1.mpr
      (fun g hg => by
        rcases List.mem_cons.mp hg with rfl | hg2
        · exact ⟨⟨"Object expected instead of number `1`"⟩, by decide⟩
        · have hg3 : g = ArrayPointGuard := by simpa using hg2
          subst hg3
          exact ⟨⟨"Array expected instead of number `1`"⟩, by decide⟩)
    have heq := (C3_anyOf_first_match [PointGuard, ArrayPointGuard]
      (JSVal.num 1) JSVal.undef).2.2 e he
    rwa [heq] at he

/-- Claim C9, counterexample: the claim also cites the prototype-based
`Schema.validate` of `lib/guards.js` (lines 311-333), whose field loop
invokes each child as `this[key](value[key], name)` — passing the
schema's own outer name hint, not the key.  A field `x` carrying a
number guard with the template `(name) must be a number`, on input
`\x7bx: "5"\x7d` with no outer hint, renders the placeholder as
`undefined`, not as the field name `x`. -/
theorem C9_counterexample :
    SchemaExtendable objectMessage
      [("x", Guard.primitive jsIsNumber "\x7b\x7bname\x7d\x7d must be a number" none)]
      (JSVal.obj [("x", JSVal.str "5")]) JSVal.undef
      = Except.error ⟨"undefined must be a number"⟩ ∧
    (⟨"undefined must be a number"⟩ : TypeError) ≠ ⟨"x must be a number"⟩ := by
  decide

/-- Claim C9, amended: in the closure-based Schema implementations — the
core `GSchema` of `core.js` and the early `GSchema` of `lib/guards.js`,
both of which invoke `guard(value[key], key)` — every descriptor field's
child guard receives the input's value at that key and the key itself as
the name hint, so a failing child's error is exactly the error of
`child(value[key], key)` and a failing primitive child renders its name
placeholder as the field name (the key's string rendering is the key
itself); in the prototype-based `Schema.validate` of `lib/guards.js`
(line 324), the children instead receive the schema's own outer name
hint (`this[key](value[key], name)`), so a failing child's error is
that of `child(value[key], name)` and the placeholder renders as the
outer hint, not the field name. -/
theorem C9_schema_name_hint (t tpl : String) (pre post : List (String × Guard))
    (key : String) (g : Guard) (v name : JSVal)
    (hv : jsIsObject (schemaTarget v) = true) (ha : jsIsArray (schemaTarget v) = false)
    (hpre : ∀ kg ∈ pre, ∃ x, invoke kg.2 ((schemaTarget v).get kg.1) (JSVal.str kg.1) = Except.ok x)
    (e : TypeError)
    (he : invoke g ((schemaTarget v).get key) (JSVal.str key) = Except.error e) :
    invoke (Guard.schema t (pre ++ (key, g) :: post)) v name = Except.error e ∧
    (∀ (p : JSVal → Bool) (vk : JSVal), p vk = false →
      invoke (Guard.primitive p tpl none) vk (JSVal.str key)
        = Except.error ⟨primSubst tpl (JSVal.str key) vk⟩) ∧
    jsToString (JSVal.str key) = key ∧
    (∀ (pre2 post2 : List (String × Guard)) (g2 : Guard) (e2 : TypeError),
      (∀ kg ∈ pre2, ∃ x, invoke kg.2 ((schemaTarget v).get kg.1) name = Except.ok x) →
      invoke g2 ((schemaTarget v).get key) name = Except.error e2 →
      SchemaExtendable t (pre2 ++ (key, g2) :: post2) v name = Except.error e2) := by
  refine ⟨?_, ?_, rfl, ?_⟩
  · have hacc : invoke (Guard.schema t (pre ++ (key, g) :: post)) v name
        = (invokeFields (pre ++ (key, g) :: post) (schemaTarget v)).map JSVal.obj := by
      simp [invoke, hv, ha]
    rw [hacc, invokeFields_err pre key g post (schemaTarget v) e hpre he]
    rfl
  · intro p vk hp
    rw [invoke_primitive_none]
    simp [hp]
  · intro pre2 post2 g2 e2 hpre2 he2
    rw [schemaExtendable_accept t (pre2 ++ (key, g2) :: post2) v name hv ha,
      invokeFieldsNamed_err pre2 key g2 post2 (schemaTarget v) name e2 hpre2 he2]
    rfl

/-- Claim C9, witness: a schema whose field `x` carries a number guard
with the template `(name) must be a number`, on input `\x7bx: "5"\x7d`:
the core `GSchema` renders the placeholder as the field name `x`, while
the prototype `Schema` invoked with the outer hint `point` renders it as
`point`. -/
theorem C9_schema_name_hint_witness :
    invoke (Guard.schema objectMessage
        [("x", Guard.primitive jsIsNumber "\x7b\x7bname\x7d\x7d must be a number" none)])
      (JSVal.obj [("x", JSVal.str "5")]) JSVal.undef
      = Except.error ⟨"x must be a number"⟩ ∧
    SchemaExtendable objectMessage
      [("x", Guard.primitive jsIsNumber "\x7b\x7bname\x7d\x7d must be a number" none)]
      (JSVal.obj [("x", JSVal.str "5")]) (JSVal.str "point")
      = Except.error ⟨"point must be a number"⟩ := by
  constructor
  · have h := C9_schema_name_hint objectMessage "\x7b\x7bname\x7d\x7d must be a number" [] [] "x"
      (Guard.primitive jsIsNumber "\x7b\x7bname\x7d\x7d must be a number" none)
      (JSVal.obj [("x", JSVal.str "5")]) JSVal.undef (by decide) (by decide)
      (fun kg hk => absurd hk (List.not_mem_nil kg))
      ⟨"x must be a number"⟩ (by decide)
    simpa using h.1
  · have h := C9_schema_name_hint objectMessage "\x7b\x7bname\x7d\x7d must be a number" [] [] "x"
      (Guard.primitive jsIsNumber "\x7b\x7bname\x7d\x7d must be a number" none)
      (JSVal.obj [("x", JSVal.str "5")]) (JSVal.str "point") (by decide) (by decide)
      (fun kg hk => absurd hk (List.not_mem_nil kg))
      ⟨"x must be a number"⟩ (by decide)
    have h2 := h.2.2.2 [] []
      (Guard.primitive jsIsNumber "\x7b\x7bname\x7d\x7d must be a number" none)
      ⟨"point must be a number"⟩
      (fun kg hk => absurd hk (List.not_mem_nil kg)) (by decide)
    simpa using h2

/-- Claim C10: the AnyOf guard catches and discards every exception an
alternative throws — any error value whatsoever, including
domain-specific errors from custom validator functions, not only the
library's type-mismatch messages — and proceeds to the next alternative;
consequently no child guard's error ever escapes an AnyOf guard: any
error the union raises is its own fixed rendered template. -/
theorem C10_anyOf_catch_all (alts : List Guard) (value name : JSVal) :
    (∀ e, invoke (Guard.anyOf alts) value name = Except.error e →
      e = ⟨anyOfSubst value⟩) ∧
    (∀ (f : JSVal → JSVal → Except TypeError JSVal) (rest : List Guard) (e : TypeError),
      f value name = Except.error e →
      invoke (Guard.anyOf (Guard.custom f :: rest)) value name
        = invoke (Guard.anyOf rest) value name) := by
  constructor
  · intro e he
    rw [invoke_anyOf_eq] at he
    exact invokeAnyOf_error_eq alts value name e he
  · intro f rest e hf
    rw [invoke_anyOf_eq, invoke_anyOf_eq]
    exact invokeAnyOf_cons_err (Guard.custom f) rest value name e hf

/-- The README's custom `color` validator: a number between 0 and 255,
raising a domain-specific error otherwise. -/
def colorFn : JSVal → JSVal → Except TypeError JSVal := fun value _ =>
  match value with
  | JSVal.num n =>
    if n ≤ 255 && 0 ≤ n then Except.ok (JSVal.num n)
    else Except.error ⟨"Color is a number between 0 and 255"⟩
  | _ => Except.error ⟨"Color is a number between 0 and 255"⟩

/-- Claim C10, witness: the custom `color` validator's domain-specific
error on a string input is swallowed by AnyOf, which proceeds to a
string alternative and succeeds; and when every alternative (including
the custom one) fails, the union's error is its fixed template, not the
color validator's message. -/
theorem C10_anyOf_catch_all_witness :
    invoke (Guard.anyOf [Guard.custom colorFn, Guard.primitive jsIsString stringMessage none])
      (JSVal.str "s") JSVal.undef = Except.ok (JSVal.str "s") ∧
    invoke (Guard.anyOf [Guard.custom colorFn, Guard.primitive jsIsString stringMessage none])
      (JSVal.bool true) JSVal.undef = Except.error ⟨anyOfSubst (JSVal.bool true)⟩ := by
  constructor
  · rw [(C10_anyOf_catch_all [Guard.custom colorFn, Guard.primitive jsIsString stringMessage none]
      (JSVal.str "s") JSVal.undef).2 colorFn
      [Guard.primitive jsIsString stringMessage none]
      ⟨"Color is a number between 0 and 255"⟩ (by decide)]
    decide
  · have he : invoke (Guard.anyOf [Guard.custom colorFn, Guard.primitive jsIsString stringMessage none])
        (JSVal.bool true) JSVal.undef
        = Except.error ⟨"Passed value: `true` has invalid type or structure"⟩ := by decide
    have heq := (C10_anyOf_catch_all
      [Guard.custom colorFn, Guard.primitive jsIsString stringMessage none]
      (JSVal.bool true) JSVal.undef).1 _ he
    rwa [heq] at he
